import Mathlib

/-
  Verification development for the lambda-event-to-http translation layer.

  Shallow embedding of the repository sources:
  - EventResponseBodyWriter   (src/lambda-writable.ts)
  - EventWrapperSocket        (event-wrapper-socket.ts): read replay, write
    accumulation, and the single-shot BasicTimeout helper
  - LambdaIncomingMessage     (lambda-incoming-message.ts): URL construction
  - LambdaResponse            (src/lambda-response.ts): header, body, status
    materialization and the v1/v2 result serializers
  - detectApiGatewayVersion   (types.ts)

  Buffers and strings are embedded element-wise: a Node Buffer is a
  List Nat of bytes (each < 256); a JavaScript string chunk carries its
  declared encoding, and Buffer.from(s, encoding) is embedded concretely
  for utf8 and latin1.
-/

/-! ### Chunks and encodings -/

/-- UTF-8 byte sequence of one code point, as produced by Buffer.from(s, "utf8"). -/
def utf8Bytes (c : Char) : List Nat :=
  let n := c.toNat
  if n < 128 then [n]
  else if n < 2048 then [192 + n / 64, 128 + n % 64]
  else if n < 65536 then [224 + n / 4096, 128 + (n / 64) % 64, 128 + n % 64]
  else [240 + n / 262144, 128 + (n / 4096) % 64, 128 + (n / 64) % 64, 128 + n % 64]

/-- The string encodings of Buffer.from modelled here. -/
inductive BufEncoding where
  | utf8
  | latin1
  deriving DecidableEq, Repr

/-- Buffer.from(s, encoding): bytes of a JavaScript string under the declared encoding. -/
def encodeString : BufEncoding → String → List Nat
  | .utf8, s => (s.data.map utf8Bytes).flatten
  | .latin1, s => s.data.map (fun c => c.toNat % 256)

/-- A chunk passed to a Writable stream: either a string with its encoding or a Buffer. -/
inductive WriteChunk where
  | str (s : String) (enc : BufEncoding)
  | buf (b : List Nat)
  deriving DecidableEq, Repr

/-- The bytes a chunk contributes to the accumulator (Buffer.from for strings). -/
def chunkBytes : WriteChunk → List Nat
  | .str s enc => encodeString enc s
  | .buf b => b

/-- The JavaScript value of chunk.length: character count for a string,
byte count for a Buffer. -/
def jsChunkLength : WriteChunk → Nat
  | .str s _ => s.length
  | .buf b => b.length

/-! ### EventResponseBodyWriter (the Response Body Sink) -/

/-- State of EventResponseBodyWriter: the ordered chunk accumulator and
the bytesWritten counter. -/
structure EventResponseBodyWriterState where
  writeBodyAccumulator : List (List Nat)
  bytesWritten : Nat
  deriving DecidableEq, Repr

/-- Fresh EventResponseBodyWriter. -/
def writerInit : EventResponseBodyWriterState :=
  { writeBodyAccumulator := [], bytesWritten := 0 }

namespace EventResponseBodyWriter

/-- One call of EventResponseBodyWriter._write(chunk, encoding, callback):
string chunks are converted with Buffer.from(chunk, encoding), Buffer chunks
appended as-is; bytesWritten grows by chunk.length. -/
def writeStep (st : EventResponseBodyWriterState) (c : WriteChunk) :
    EventResponseBodyWriterState :=
  { writeBodyAccumulator := st.writeBodyAccumulator ++ [chunkBytes c],
    bytesWritten := st.bytesWritten + jsChunkLength c }

/-- The body getter: Buffer.concat over the accumulator. -/
def body (st : EventResponseBodyWriterState) : List Nat :=
  st.writeBodyAccumulator.flatten

end EventResponseBodyWriter

/-! ### EventWrapperSocket (the Simulated Duplex Endpoint) -/

/-- One call of EventWrapperSocket._read(size) on a socket whose read source is
body and whose read offset is offset. Returns the pushed data chunk (none when
only the end-of-stream marker is pushed), whether the end-of-stream marker was
pushed during this call, and the new read offset. -/
def EventWrapperSocket.readStep (body : Option (List Nat)) (offset size : Nat) :
    Option (List Nat) × Bool × Nat :=
  match body with
  | none => (none, true, offset)
  | some b =>
    if b.length ≤ offset then
      (none, true, offset)
    else
      let chunk := (b.drop offset).take size
      (some chunk, decide (b.length ≤ offset + chunk.length), offset + chunk.length)

/-- The chunk sequence produced by repeatedly calling _read(size) from the given
offset until the end-of-stream marker is pushed. -/
def EventWrapperSocket.readChunks (b : List Nat) (size offset : Nat) : List (List Nat) :=
  if _h : offset < b.length ∧ 0 < size then
    ((b.drop offset).take size) ::
      EventWrapperSocket.readChunks b size (offset + ((b.drop offset).take size).length)
  else
    []
termination_by b.length - offset
decreasing_by
  simp only [List.length_take, List.length_drop]
  omega

/-- The state of the single-shot BasicTimeout helper: whether the underlying
NodeJS timer handle is still set, the stored duration, and the absolute time
at which the timer would fire. -/
structure BasicTimeoutModel where
  armed : Bool
  timeoutMs : Nat
  deadline : Nat
  deriving DecidableEq, Repr

/-- BasicTimeout.cancel: clears the underlying timer handle. -/
def BasicTimeoutModel.cancel (tm : BasicTimeoutModel) : BasicTimeoutModel :=
  { tm with armed := false }

/-- BasicTimeout.refresh at the current time: restarts the full duration when
the underlying handle is still set, and does nothing otherwise. -/
def BasicTimeoutModel.refreshAt (now : Nat) (tm : BasicTimeoutModel) : BasicTimeoutModel :=
  if tm.armed then { tm with deadline := now + tm.timeoutMs } else tm

/-- State of an EventWrapperSocket: the write accumulator, the bytesWritten
counter, the read offset, and the timeout slot (the _timeout field, which keeps
referencing a cancelled BasicTimeout until replaced). -/
structure EventWrapperSocketState where
  writeBodyAccumulator : List (List Nat)
  bytesWritten : Nat
  readOffset : Nat
  timeoutSlot : Option BasicTimeoutModel
  deriving DecidableEq, Repr

/-- Fresh EventWrapperSocket state. -/
def sockInit : EventWrapperSocketState :=
  { writeBodyAccumulator := [], bytesWritten := 0, readOffset := 0, timeoutSlot := none }

namespace EventWrapperSocket

/-- EventWrapperSocket.setTimeout(ms, callback) called at absolute time now:
ms = 0 cancels any existing timer and does nothing else; otherwise the old
timer is cancelled and a fresh armed BasicTimeout replaces it. -/
def setTimeoutAt (st : EventWrapperSocketState) (now ms : Nat) : EventWrapperSocketState :=
  if ms = 0 then
    { st with timeoutSlot := st.timeoutSlot.map BasicTimeoutModel.cancel }
  else
    { st with timeoutSlot := some { armed := true, timeoutMs := ms, deadline := now + ms } }

/-- EventWrapperSocket._write(chunk, encoding, callback) at absolute time now:
refreshes the timeout if one is pending, appends the chunk bytes, and adds
chunk.length to bytesWritten. -/
def writeAt (st : EventWrapperSocketState) (now : Nat) (c : WriteChunk) :
    EventWrapperSocketState :=
  { st with
    timeoutSlot := st.timeoutSlot.map (BasicTimeoutModel.refreshAt now),
    writeBodyAccumulator := st.writeBodyAccumulator ++ [chunkBytes c],
    bytesWritten := st.bytesWritten + jsChunkLength c }

/-- The scheduler firing the socket timer at absolute time now: only an armed
timer whose deadline has been reached fires; firing emits the timeout signal
and clears the socket timeout slot (the callback installed by setTimeout).
Returns the state and whether the timeout signal was emitted. -/
def fireAt (st : EventWrapperSocketState) (now : Nat) : EventWrapperSocketState × Bool :=
  match st.timeoutSlot with
  | some tm =>
    if tm.armed && decide (tm.deadline ≤ now) then
      ({ st with timeoutSlot := none }, true)
    else
      (st, false)
  | none => (st, false)

/-- _writeBufferContents(): Buffer.concat over the accumulator. -/
def writeBufferContents (st : EventWrapperSocketState) : List Nat :=
  st.writeBodyAccumulator.flatten

end EventWrapperSocket

/-- Operations observable on the timer surface of a socket, each stamped with
the absolute time at which it runs. -/
inductive SocketOp where
  | setT (ms : Nat)
  | write (c : WriteChunk)
  | fire
  deriving DecidableEq, Repr

/-- One timed operation on the socket; the Bool reports whether the timeout
signal was emitted. -/
def socketStep (st : EventWrapperSocketState) (e : Nat × SocketOp) :
    EventWrapperSocketState × Bool :=
  match e.2 with
  | .setT ms => (EventWrapperSocket.setTimeoutAt st e.1 ms, false)
  | .write c => (EventWrapperSocket.writeAt st e.1 c, false)
  | .fire => EventWrapperSocket.fireAt st e.1

/-- Run a timed operation sequence; the Bool reports whether any timeout signal
was emitted along the way. -/
def runSocket (st : EventWrapperSocketState) (ops : List (Nat × SocketOp)) :
    EventWrapperSocketState × Bool :=
  ops.foldl (fun acc e => let r := socketStep acc.1 e; (r.1, acc.2 || r.2)) (st, false)

/-! ### Event model and URL construction (LambdaIncomingMessage) -/

/-- The fields of an API Gateway event that the embedded functions consult.
A field is none when the corresponding key is absent from the event object
(for queryStringParameters, also when it is present but null, which behaves
identically in every consulted branch). -/
structure ApiGatewayEventModel where
  version : Option String
  httpMethod : Option String
  path : Option String
  rawPath : Option String
  queryStringParameters : Option (List (String × Option String))
  rawQueryString : Option String
  deriving DecidableEq, Repr

/-- The detected API Gateway version. -/
inductive ApiGatewayVersion where
  | v1
  | v2
  deriving DecidableEq, Repr

/-- detectApiGatewayVersion: version field "2.0" means v2; a truthy httpMethod
means v1; the default is v1. -/
def detectApiGatewayVersion (e : ApiGatewayEventModel) : ApiGatewayVersion :=
  if e.version = some "2.0" then .v2 else .v1

/-- Uppercase hexadecimal digit. -/
def hexUpper (n : Nat) : Char :=
  if n < 10 then Char.ofNat (48 + n) else Char.ofNat (55 + n)

/-- Percent-encoding of one byte under the application/x-www-form-urlencoded
serializer used by URLSearchParams.toString: alphanumerics and * - . _ are
kept, space becomes +, every other byte becomes %XX with uppercase hex. -/
def formEncodeByte (b : Nat) : List Char :=
  if b = 32 then
    [Char.ofNat 43]
  else if (48 ≤ b ∧ b ≤ 57) ∨ (65 ≤ b ∧ b ≤ 90) ∨ (97 ≤ b ∧ b ≤ 122) ∨
      b = 42 ∨ b = 45 ∨ b = 46 ∨ b = 95 then
    [Char.ofNat b]
  else
    [Char.ofNat 37, hexUpper (b / 16), hexUpper (b % 16)]

/-- Form-urlencoding of a string: percent-encode its UTF-8 bytes. -/
def formEncode (s : String) : String :=
  String.mk (((encodeString .utf8 s).map formEncodeByte).flatten)

/-- URLSearchParams serialization of the structured query map after appending
every non-null entry, in object key order. -/
def urlSearchParamsToString (l : List (String × Option String)) : String :=
  String.intercalate "&"
    (l.filterMap (fun kv => kv.2.map (fun v => formEncode kv.1 ++ "=" ++ formEncode v)))

/-- LambdaIncomingMessage._parseUrl: path from the path field (v1) or rawPath
field (v2); query from the structured queryStringParameters map via
URLSearchParams when that key holds an object, otherwise from a truthy
(non-empty) rawQueryString; the two are joined with a question mark when the
query is non-empty. -/
def LambdaIncomingMessage.parseUrl (e : ApiGatewayEventModel) : String :=
  let path :=
    match e.path with
    | some p => p
    | none =>
      match e.rawPath with
      | some rp => rp
      | none => ""
  let query :=
    match e.queryStringParameters with
    | some l => urlSearchParamsToString l
    | none =>
      match e.rawQueryString with
      | some s => s
      | none => ""
  if query = "" then path else path ++ "?" ++ query

/-! ### Base64 and body materialization (LambdaResponse) -/

/-- Base64 encoding of a byte list as 6-bit groups, without padding. -/
def bytesToSextets : List Nat → List Nat
  | [] => []
  | [b0] => [b0 / 4, b0 % 4 * 16]
  | [b0, b1] => [b0 / 4, b0 % 4 * 16 + b1 / 16, b1 % 16 * 4]
  | b0 :: b1 :: b2 :: rest =>
    b0 / 4 :: (b0 % 4 * 16 + b1 / 16) :: (b1 % 16 * 4 + b2 / 64) :: b2 % 64 ::
      bytesToSextets rest

/-- Base64 decoding of 6-bit groups back to bytes (padding already removed). -/
def sextetsToBytes : List Nat → List Nat
  | [] => []
  | [_] => []
  | [c0, c1] => [c0 * 4 + c1 / 16]
  | [c0, c1, c2] => [c0 * 4 + c1 / 16, c1 % 16 * 16 + c2 / 4]
  | c0 :: c1 :: c2 :: c3 :: rest =>
    (c0 * 4 + c1 / 16) :: (c1 % 16 * 16 + c2 / 4) :: (c2 % 4 * 64 + c3) ::
      sextetsToBytes rest

/-- Character of one 6-bit group in the standard base64 alphabet. -/
def base64Char (n : Nat) : Char :=
  if n < 26 then Char.ofNat (65 + n)
  else if n < 52 then Char.ofNat (71 + n)
  else if n < 62 then Char.ofNat (n - 4)
  else if n = 62 then Char.ofNat 43
  else Char.ofNat 47

/-- Value of one standard base64 alphabet character. -/
def base64CharVal (c : Char) : Nat :=
  if 65 ≤ c.toNat ∧ c.toNat ≤ 90 then c.toNat - 65
  else if 97 ≤ c.toNat ∧ c.toNat ≤ 122 then c.toNat - 71
  else if 48 ≤ c.toNat ∧ c.toNat ≤ 57 then c.toNat + 4
  else if c.toNat = 43 then 62
  else 63

/-- buffer.toString(base64): standard padded base64 text of the bytes. -/
def base64EncodeString (bs : List Nat) : String :=
  String.mk ((bytesToSextets bs).map base64Char ++
    List.replicate ((3 - bs.length % 3) % 3) (Char.ofNat 61))

/-- Base64 decoding of a padded base64 text back to bytes. -/
def base64DecodeString (s : String) : List Nat :=
  sextetsToBytes ((s.data.filter (fun c => c.toNat ≠ 61)).map base64CharVal)

/-- buffer.toString() on a buffer of printable ASCII bytes: one character per
byte. -/
def asciiString (bs : List Nat) : String :=
  String.mk (bs.map Char.ofNat)

/-- LambdaResponse._makeBodyResponse: if any accumulated byte is outside the
printable ASCII range 32..126 the body is base64-encoded and the binary flag
set; otherwise the body is returned as literal text. -/
def LambdaResponse.makeBodyResponse (body : List Nat) : String × Bool :=
  if body.any (fun c => decide (c < 32) || decide (126 < c)) then
    (base64EncodeString body, true)
  else
    (asciiString body, false)

/-- Whether the first list is a prefix of the second. -/
def listStartsWith : List Char → List Char → Bool
  | [], _ => true
  | _ :: _, [] => false
  | p :: ps, c :: cs => (p = c) && listStartsWith ps cs

/-- Fuel-driven scan behind jsSplitString; the fuel always suffices when it
starts above the length of the scanned list. -/
def jsSplitAux (sep : List Char) : Nat → List Char → List Char → List (List Char)
  | 0, s, acc => [acc.reverse ++ s]
  | _ + 1, [], acc => [acc.reverse]
  | fuel + 1, c :: rest, acc =>
    if listStartsWith sep (c :: rest) then
      acc.reverse :: jsSplitAux sep fuel ((c :: rest).drop sep.length) []
    else
      jsSplitAux sep fuel rest (c :: acc)

/-- JavaScript String.prototype.split with a non-empty separator string. -/
def jsSplitString (s sep : String) : List String :=
  (jsSplitAux sep.data (s.data.length + 1) s.data []).map String.mk

/-! ### Header, status and result serialization (LambdaResponse) -/

/-- A value in the inherited response header store: string, number, or string
array (the forms the standard response-writer stores). -/
inductive HeaderValue where
  | str (s : String)
  | num (n : Int)
  | arr (vs : List String)
  deriving DecidableEq, Repr

/-- A value in the flattened outgoing headers map. -/
inductive OutHeaderValue where
  | str (s : String)
  | num (n : Int)
  deriving DecidableEq, Repr

/-- The per-entry collapse performed by LambdaResponse._makeHeaders: a
set-cookie array is joined with a semicolon and a space, any other array is
joined with commas, strings and numbers pass through. -/
def LambdaResponse.makeHeaderValue (key : String) (v : HeaderValue) : OutHeaderValue :=
  match v with
  | .str s => .str s
  | .num n => .num n
  | .arr vs =>
    if key = "set-cookie" then .str (String.intercalate "; " vs)
    else .str (String.intercalate "," vs)

/-- LambdaResponse._makeHeaders over the header store entries. -/
def LambdaResponse.makeHeaders (hs : List (String × HeaderValue)) :
    List (String × OutHeaderValue) :=
  hs.map (fun kv => (kv.1, LambdaResponse.makeHeaderValue kv.1 kv.2))

/-- The statusCode slot as the serializers see it: a number, a numeric string,
or entirely unset (none). -/
inductive StatusStore where
  | num (n : Int)
  | str (s : String)
  deriving DecidableEq, Repr

/-- A JavaScript number that is either an integer or NaN (the result of
parseInt on a non-numeric string). -/
inductive JSNumber where
  | int (n : Int)
  | nan
  deriving DecidableEq, Repr

/-- Value of a decimal digit sequence, none when there is no leading digit
(parseInt returns NaN). -/
def digitsVal (cs : List Char) : Option Nat :=
  let ds := cs.takeWhile (fun c => c.isDigit)
  if ds.isEmpty then none
  else some (ds.foldl (fun a c => a * 10 + (c.toNat - 48)) 0)

/-- Model of JavaScript parseInt with the default radix on a decimal string:
skip leading spaces, read an optional sign and then leading digits, ignoring
any trailing characters; none stands for NaN. -/
def parseIntJS (s : String) : Option Int :=
  match s.data.dropWhile (fun c => c = ' ') with
  | Char.mk 45 _ :: rest => (digitsVal rest).map (fun n => -(n : Int))
  | Char.mk 43 _ :: rest => (digitsVal rest).map (fun n => (n : Int))
  | rest => (digitsVal rest).map (fun n => (n : Int))

/-- LambdaResponse._lambdaStatusCode: undefined stays undefined, a number is
returned as set, a string is passed through parseInt. -/
def LambdaResponse.lambdaStatusCode : Option StatusStore → Option JSNumber
  | none => none
  | some (.num n) => some (.int n)
  | some (.str s) =>
    some (match parseIntJS s with
      | some k => .int k
      | none => .nan)

/-- JavaScript x || d for a possibly-undefined number x: undefined, NaN and 0
all fall back to the default. -/
def jsNumOrDefault (v : Option JSNumber) (d : Int) : Int :=
  match v with
  | some (.int n) => if n = 0 then d else n
  | _ => d

/-- The response-side state the serializers consult: the inherited statusCode
slot, the inherited header store, and the bytes accumulated by the
EventResponseBodyWriter attached as the socket. -/
structure LambdaResponseModel where
  statusCode : Option StatusStore
  headers : List (String × HeaderValue)
  bodyBytes : List Nat
  deriving DecidableEq, Repr

/-- The v1 (format A) result shape; it has no cookies field. -/
structure APIGatewayProxyResult where
  statusCode : Int
  body : String
  headers : List (String × OutHeaderValue)
  isBase64Encoded : Bool
  deriving DecidableEq, Repr

/-- The v2 (format B) result shape: statusCode stays unset when never
assigned, and cookies is added only when non-empty. -/
structure APIGatewayProxyResultV2 where
  statusCode : Option JSNumber
  body : String
  headers : List (String × OutHeaderValue)
  isBase64Encoded : Bool
  cookies : Option (List String)
  deriving DecidableEq, Repr

/-- LambdaResponse.lambdaResponse, the v1 serializer: forced default status
of 200. -/
def LambdaResponse.lambdaResponse (r : LambdaResponseModel) : APIGatewayProxyResult :=
  let headers := LambdaResponse.makeHeaders r.headers
  let bodyPair := LambdaResponse.makeBodyResponse r.bodyBytes
  { statusCode := jsNumOrDefault (LambdaResponse.lambdaStatusCode r.statusCode) 200,
    body := bodyPair.1,
    headers := headers,
    isBase64Encoded := bodyPair.2 }

/-- LambdaResponse.lambdaResponseV2, the v2 serializer: a set-cookie entry in
the flattened headers is split back on the semicolon-space joiner into a
cookies array, removed from the headers map, and the cookies field is added
only when the array is non-empty. The result is none when the set-cookie
entry is a number, on which the string split of the source would throw. -/
def LambdaResponse.lambdaResponseV2 (r : LambdaResponseModel) :
    Option APIGatewayProxyResultV2 :=
  let headers := LambdaResponse.makeHeaders r.headers
  let bodyPair := LambdaResponse.makeBodyResponse r.bodyBytes
  let statusCode := LambdaResponse.lambdaStatusCode r.statusCode
  match headers.lookup "set-cookie" with
  | some (.str s) =>
    let cookies := jsSplitString s "; "
    some { statusCode := statusCode,
           body := bodyPair.1,
           headers := headers.filter (fun kv => kv.1 ≠ "set-cookie"),
           isBase64Encoded := bodyPair.2,
           cookies := if 0 < cookies.length then some cookies else none }
  | some (.num _) => none
  | none =>
    some { statusCode := statusCode,
           body := bodyPair.1,
           headers := headers,
           isBase64Encoded := bodyPair.2,
           cookies := none }

/-- The union of the two result shapes produced by toLambdaResponse. -/
inductive LambdaResult where
  | v1 (r : APIGatewayProxyResult)
  | v2 (r : APIGatewayProxyResultV2)
  deriving DecidableEq, Repr

/-- LambdaResponse.toLambdaResponse: dispatches on the version detected from
the bound request event. -/
def LambdaResponse.toLambdaResponse (e : ApiGatewayEventModel) (r : LambdaResponseModel) :
    Option LambdaResult :=
  match detectApiGatewayVersion e with
  | .v1 => some (.v1 (LambdaResponse.lambdaResponse r))
  | .v2 => (LambdaResponse.lambdaResponseV2 r).map .v2

/-! ### Response lifecycle (LambdaResponse.end) -/

/-- The per-invocation phases of the Outbound Response Adapter. -/
inductive ResponsePhase where
  | writing
  | ending
  | finished
  deriving DecidableEq, Repr

/-- Observable lifecycle state of a LambdaResponse: its phase, the body bytes
accumulated in its sink, how many finish signals have been emitted, and
whether the sink has been closed. -/
structure LambdaResponseLifecycle where
  phase : ResponsePhase
  finalBody : List Nat
  finishCount : Nat
  sinkClosed : Bool
  deriving DecidableEq, Repr

/-- Modelled from the spec: the finish logic LambdaResponse.end inherits with
super.end is the standard response-writer construct, which is not part of this
repository sources. Per the contract, the first end call flushes the final
chunk, emits the completion signal, and closes the sink; once ending has begun
a further end call ignores its chunk, emits no second finish signal, and any
error raised by the inherited logic is caught and logged, so the state is left
unchanged. -/
def LambdaResponse.endStep (st : LambdaResponseLifecycle) (chunk : Option WriteChunk) :
    LambdaResponseLifecycle :=
  match st.phase with
  | .writing =>
    { phase := .finished,
      finalBody := st.finalBody ++ (match chunk with | some c => chunkBytes c | none => []),
      finishCount := st.finishCount + 1,
      sinkClosed := true }
  | _ => st

/-- Modelled from the spec: a chunk write through the inherited writer reaches
the sink only while the response is still in the writing phase; after ending
begins, further chunk writes are ignored. -/
def LambdaResponse.writeLifecycleStep (st : LambdaResponseLifecycle) (c : WriteChunk) :
    LambdaResponseLifecycle :=
  match st.phase with
  | .writing => { st with finalBody := st.finalBody ++ chunkBytes c }
  | _ => st

/-- An operation applied to the response after some point in its life. -/
inductive ResponseOp where
  | write (c : WriteChunk)
  | endCall (chunk : Option WriteChunk)
  deriving DecidableEq, Repr

/-- Run a sequence of response operations. -/
def runResponse (st : LambdaResponseLifecycle) (ops : List ResponseOp) :
    LambdaResponseLifecycle :=
  ops.foldl
    (fun acc op =>
      match op with
      | .write c => LambdaResponse.writeLifecycleStep acc c
      | .endCall c => LambdaResponse.endStep acc c)
    st

/-! ### Trace predicates and concrete fixtures -/

/-- True when no operation in the sequence installs a fresh non-zero timeout. -/
def opsNeverArm (ops : List (Nat × SocketOp)) : Bool :=
  ops.all (fun e =>
    match e.2 with
    | .setT ms => ms = 0
    | _ => true)

/-- Traces of writes and fire attempts in which, with respect to a timer of
duration n last refreshed at the given time, every write happens less than n
milliseconds after the previous refresh and every fire attempt happens before
the current deadline. -/
def writesSpaced (n : Nat) : Nat → List (Nat × SocketOp) → Bool
  | _, [] => true
  | tlast, (t, op) :: rest =>
    match op with
    | .write _ => decide (tlast ≤ t) && decide (t < tlast + n) && writesSpaced n t rest
    | .fire => decide (t < tlast + n) && writesSpaced n tlast rest
    | .setT _ => false

/-- A format-B event carrying both a structured query map and a raw query
string. -/
def eventBBothQueries : ApiGatewayEventModel :=
  { version := some "2.0", httpMethod := none, path := none, rawPath := some "/y",
    queryStringParameters := some [("a", some "1")], rawQueryString := some "c=3" }

/-! ### Theorems -/

theorem EventResponseBodyWriter.body_foldl (ws : List WriteChunk) :
    ∀ st : EventResponseBodyWriterState,
      EventResponseBodyWriter.body (ws.foldl EventResponseBodyWriter.writeStep st) =
        EventResponseBodyWriter.body st ++ (ws.map chunkBytes).flatten := by
  induction ws with
  | nil => intro st; simp
  | cons c ws ih =>
    intro st
    simp only [List.foldl_cons, List.map_cons, List.flatten_cons, ih]
    simp [EventResponseBodyWriter.body, EventResponseBodyWriter.writeStep,
      List.flatten_append]

/-- C5: for every sequence of write calls to the Response Body Sink, the
materialized body equals the byte concatenation of the chunks in call order,
each string chunk converted with its supplied encoding and each byte chunk
appended as-is. -/
theorem EventResponseBodyWriter.body_is_ordered_concat (ws : List WriteChunk) :
    EventResponseBodyWriter.body (ws.foldl EventResponseBodyWriter.writeStep writerInit) =
      (ws.map chunkBytes).flatten := by
  simpa [writerInit, EventResponseBodyWriter.body] using
    EventResponseBodyWriter.body_foldl ws writerInit

theorem runResponse_phase_not_writing (ops : List ResponseOp) :
    ∀ st : LambdaResponseLifecycle, st.phase ≠ .writing →
      (runResponse st ops).phase ≠ .writing := by
  induction ops with
  | nil => intro st h; exact h
  | cons op ops ih =>
    intro st h
    have hstep :
        ∀ st2 : LambdaResponseLifecycle,
          runResponse st2 (op :: ops) =
            runResponse
              (match op with
                | .write c => LambdaResponse.writeLifecycleStep st2 c
                | .endCall c => LambdaResponse.endStep st2 c) ops := by
      intro st2; rfl
    rw [hstep]
    apply ih
    obtain ⟨ph, body, fc, sc⟩ := st
    cases op <;> cases ph <;>
      simp_all [LambdaResponse.writeLifecycleStep, LambdaResponse.endStep]

/-- C6: a second end call leaves the finalized body unchanged and does not
emit another finish signal; after ending begins, chunk writes are ignored and
no sequence of further operations transitions the response back to the
writing phase. -/
theorem LambdaResponse.end_idempotent (st : LambdaResponseLifecycle)
    (c1 c2 : Option WriteChunk) (c3 : WriteChunk) (ops : List ResponseOp) :
    (LambdaResponse.endStep (LambdaResponse.endStep st c1) c2).finalBody =
        (LambdaResponse.endStep st c1).finalBody ∧
    (LambdaResponse.endStep (LambdaResponse.endStep st c1) c2).finishCount =
        (LambdaResponse.endStep st c1).finishCount ∧
    LambdaResponse.writeLifecycleStep (LambdaResponse.endStep st c1) c3 =
        LambdaResponse.endStep st c1 ∧
    (LambdaResponse.endStep st c1).phase ≠ .writing ∧
    (runResponse (LambdaResponse.endStep st c1) ops).phase ≠ .writing := by
  obtain ⟨ph, bdy, fc, sc⟩ := st
  have hph : (LambdaResponse.endStep ⟨ph, bdy, fc, sc⟩ c1).phase ≠ .writing := by
    cases ph <;> simp [LambdaResponse.endStep]
  refine ⟨?_, ?_, ?_, hph, runResponse_phase_not_writing ops _ hph⟩ <;>
    cases ph <;>
      simp [LambdaResponse.endStep, LambdaResponse.writeLifecycleStep]

theorem EventWrapperSocket.readChunks_flatten (b : List Nat) (size : Nat) (h : 0 < size) :
    ∀ off, (EventWrapperSocket.readChunks b size off).flatten = b.drop off := by
  intro off
  induction off using EventWrapperSocket.readChunks.induct b size with
  | case1 off hlt ih =>
    rw [EventWrapperSocket.readChunks, dif_pos hlt, List.flatten_cons, ih]
    have hdd : b.drop (off + (List.take size (List.drop off b)).length) =
        (b.drop off).drop ((List.take size (List.drop off b)).length) := by
      rw [List.drop_drop]
    rw [hdd]
    rcases le_or_lt size (List.drop off b).length with hle | hgt
    · have hlen : (List.take size (List.drop off b)).length = size := by
        rw [List.length_take]; omega
      rw [hlen, List.take_append_drop]
    · have hall : List.take size (List.drop off b) = List.drop off b :=
        List.take_of_length_le (by omega)
      rw [hall, List.drop_eq_nil_of_le (Nat.le_refl _), List.append_nil]
  | case2 off hn =>
    have hle : b.length ≤ off := by omega
    rw [EventWrapperSocket.readChunks, dif_neg hn, List.flatten_nil,
      List.drop_eq_nil_of_le hle]

/-- C4: reading the Simulated Duplex Endpoint repeatedly with a fixed positive
chunk size reconstructs the request body exactly: the produced chunks
concatenate to the body byte-for-byte, every read call below the end pushes
the slice starting at the current offset and advances the offset by exactly
the slice length, the end-of-stream marker is pushed within the same call
exactly when the slice reaches the end of the body, and any later read pushes
only the end-of-stream marker. -/
theorem EventWrapperSocket.read_reconstructs_body (b : List Nat) (size : Nat)
    (h : 0 < size) :
    (EventWrapperSocket.readChunks b size 0).flatten = b ∧
    (∀ off, off < b.length →
       (EventWrapperSocket.readStep (some b) off size).1 =
           some ((b.drop off).take size) ∧
       (EventWrapperSocket.readStep (some b) off size).2.2 =
           off + ((b.drop off).take size).length ∧
       ((EventWrapperSocket.readStep (some b) off size).2.1 = true ↔
           b.length ≤ (EventWrapperSocket.readStep (some b) off size).2.2) ∧
       EventWrapperSocket.readChunks b size off =
         ((b.drop off).take size) ::
           EventWrapperSocket.readChunks b size
             (off + ((b.drop off).take size).length)) ∧
    (∀ off, b.length ≤ off →
       EventWrapperSocket.readStep (some b) off size = (none, true, off)) := by
  refine ⟨EventWrapperSocket.readChunks_flatten b size h 0, ?_, ?_⟩
  · intro off hoff
    have hnotle : ¬ b.length ≤ off := by omega
    refine ⟨?_, ?_, ?_, ?_⟩
    · simp [EventWrapperSocket.readStep, hnotle]
    · simp [EventWrapperSocket.readStep, hnotle]
    · simp [EventWrapperSocket.readStep, hnotle]
    · rw [EventWrapperSocket.readChunks, dif_pos ⟨hoff, h⟩]
  · intro off hle
    simp [EventWrapperSocket.readStep, hle]

theorem EventWrapperSocket.read_reconstructs_body_witness :
    (EventWrapperSocket.readChunks [10, 20, 30] 2 0).flatten = [10, 20, 30] ∧
    (EventWrapperSocket.readStep (some [10, 20, 30]) 2 2).1 = some [30] := by
  obtain ⟨h1, h2, h3⟩ := EventWrapperSocket.read_reconstructs_body [10, 20, 30] 2 (by decide)
  refine ⟨h1, ?_⟩
  simpa using (h2 2 (by decide)).1

theorem EventWrapperSocket.writeAt_foldl (t : Nat) (ws : List WriteChunk) :
    ∀ st : EventWrapperSocketState,
      ((ws.foldl (fun st c => EventWrapperSocket.writeAt st t c) st).writeBodyAccumulator =
          st.writeBodyAccumulator ++ ws.map chunkBytes) ∧
      ((ws.foldl (fun st c => EventWrapperSocket.writeAt st t c) st).bytesWritten =
          st.bytesWritten + (ws.map jsChunkLength).sum) := by
  induction ws with
  | nil => intro st; simp
  | cons c ws ih =>
    intro st
    have h := ih (EventWrapperSocket.writeAt st t c)
    simp only [List.foldl_cons, List.map_cons, List.sum_cons] at h ⊢
    refine ⟨?_, ?_⟩
    · rw [h.1]; simp [EventWrapperSocket.writeAt]
    · rw [h.2]; simp [EventWrapperSocket.writeAt]; omega

/-- C8 counterexample: writing the single one-character string chunk with
two-byte UTF-8 encoding makes bytesWritten 1 while the accumulated body holds
2 bytes, so the counter does not equal the byte length of the body. -/
theorem EventWrapperSocket.bytesWritten_mismatch :
    ¬ ((EventWrapperSocket.writeAt sockInit 0 (.str "é" .utf8)).bytesWritten =
        (EventWrapperSocket.writeBufferContents
          (EventWrapperSocket.writeAt sockInit 0 (.str "é" .utf8))).length) := by
  decide

/-- C8 amended: after every sequence of write calls, bytesWritten equals the
sum of the chunk.length values, counting a string chunk by its character count
and a byte chunk by its byte count; whenever every string chunk happens to
encode to as many bytes as it has characters, this equals the byte length of
the accumulated response body. -/
theorem EventWrapperSocket.bytesWritten_counts_chunk_lengths
    (ws : List WriteChunk) (t : Nat) :
    (ws.foldl (fun st c => EventWrapperSocket.writeAt st t c) sockInit).bytesWritten =
        (ws.map jsChunkLength).sum ∧
    ((∀ c ∈ ws, jsChunkLength c = (chunkBytes c).length) →
       (ws.foldl (fun st c => EventWrapperSocket.writeAt st t c) sockInit).bytesWritten =
         (EventWrapperSocket.writeBufferContents
           (ws.foldl (fun st c => EventWrapperSocket.writeAt st t c) sockInit)).length) := by
  obtain ⟨hacc, hlen⟩ := EventWrapperSocket.writeAt_foldl t ws sockInit
  refine ⟨by simpa [sockInit] using hlen, ?_⟩
  intro hall
  rw [hlen, EventWrapperSocket.writeBufferContents, hacc]
  simp only [sockInit, List.nil_append, Nat.zero_add, List.length_flatten, List.map_map]
  exact congrArg List.sum (List.map_congr_left (fun c hc => hall c hc))

theorem EventWrapperSocket.bytesWritten_counts_chunk_lengths_witness :
    (([WriteChunk.buf [1, 2], WriteChunk.str "ab" .utf8].foldl
        (fun st c => EventWrapperSocket.writeAt st 0 c) sockInit)).bytesWritten =
      (EventWrapperSocket.writeBufferContents
        ([WriteChunk.buf [1, 2], WriteChunk.str "ab" .utf8].foldl
          (fun st c => EventWrapperSocket.writeAt st 0 c) sockInit)).length := by
  exact (EventWrapperSocket.bytesWritten_counts_chunk_lengths
    [WriteChunk.buf [1, 2], WriteChunk.str "ab" .utf8] 0).2 (by decide)

theorem runSocket_disarmed_no_signal (ops : List (Nat × SocketOp)) :
    ∀ (st : EventWrapperSocketState) (bb : Bool),
      st.timeoutSlot.all (fun tm => !tm.armed) = true →
      opsNeverArm ops = true →
      ((ops.foldl (fun acc e => let r := socketStep acc.1 e; (r.1, acc.2 || r.2))
          (st, bb)).2 = bb ∧
       (ops.foldl (fun acc e => let r := socketStep acc.1 e; (r.1, acc.2 || r.2))
          (st, bb)).1.timeoutSlot.all (fun tm => !tm.armed) = true) := by
  induction ops with
  | nil => intro st bb h _; exact ⟨rfl, h⟩
  | cons e ops ih =>
    intro st bb hst hops
    obtain ⟨t, op⟩ := e
    simp only [opsNeverArm, List.all_cons, Bool.and_eq_true] at hops
    obtain ⟨hop, hops⟩ := hops
    have hops2 : opsNeverArm ops = true := hops
    have hstep : ∀ st2 bb2,
        (((t, op) :: ops).foldl
            (fun acc e => let r := socketStep acc.1 e; (r.1, acc.2 || r.2)) (st2, bb2)) =
          (ops.foldl (fun acc e => let r := socketStep acc.1 e; (r.1, acc.2 || r.2))
            ((socketStep st2 (t, op)).1, bb2 || (socketStep st2 (t, op)).2)) := by
      intro st2 bb2; rfl
    rw [hstep]
    cases op with
    | setT ms =>
      have hms : ms = 0 := by simpa using hop
      subst hms
      have hslot : (socketStep st (t, .setT 0)).1.timeoutSlot.all
          (fun tm => !tm.armed) = true := by
        cases hsl : st.timeoutSlot with
        | none => simp [socketStep, EventWrapperSocket.setTimeoutAt, hsl]
        | some tm =>
          simp [socketStep, EventWrapperSocket.setTimeoutAt, hsl,
            BasicTimeoutModel.cancel]
      have hsig : (socketStep st (t, .setT 0)).2 = false := rfl
      rw [hsig, Bool.or_false]
      exact ih _ bb hslot hops2
    | write c =>
      have hslot : (socketStep st (t, .write c)).1.timeoutSlot.all
          (fun tm => !tm.armed) = true := by
        cases hsl : st.timeoutSlot with
        | none => simp [socketStep, EventWrapperSocket.writeAt, hsl]
        | some tm =>
          have harm : tm.armed = false := by
            simpa [hsl] using hst
          simp [socketStep, EventWrapperSocket.writeAt, hsl,
            BasicTimeoutModel.refreshAt, harm]
      have hsig : (socketStep st (t, .write c)).2 = false := rfl
      rw [hsig, Bool.or_false]
      exact ih _ bb hslot hops2
    | fire =>
      have hfire : socketStep st (t, .fire) = (st, false) := by
        cases hsl : st.timeoutSlot with
        | none => simp [socketStep, EventWrapperSocket.fireAt, hsl]
        | some tm =>
          have harm : tm.armed = false := by
            simpa [hsl] using hst
          simp [socketStep, EventWrapperSocket.fireAt, hsl, harm]
      rw [hfire]
      simp only [Bool.or_false]
      exact ih _ bb hst hops2

/-- C9: after a non-zero setTimeout, a setTimeout with 0 cancels the pending
timer and changes nothing else on the endpoint, and no timeout signal is ever
emitted by any later operation sequence that does not install a new non-zero
timeout. -/
theorem EventWrapperSocket.setTimeout_zero_cancels (st : EventWrapperSocketState)
    (t1 t2 n : Nat) (hn : 0 < n) (ops : List (Nat × SocketOp))
    (hops : opsNeverArm ops = true) :
    (EventWrapperSocket.setTimeoutAt st t1 n).timeoutSlot =
        some { armed := true, timeoutMs := n, deadline := t1 + n } ∧
    (EventWrapperSocket.setTimeoutAt
        (EventWrapperSocket.setTimeoutAt st t1 n) t2 0).timeoutSlot =
      some { armed := false, timeoutMs := n, deadline := t1 + n } ∧
    (EventWrapperSocket.setTimeoutAt
        (EventWrapperSocket.setTimeoutAt st t1 n) t2 0).writeBodyAccumulator =
      st.writeBodyAccumulator ∧
    (EventWrapperSocket.setTimeoutAt
        (EventWrapperSocket.setTimeoutAt st t1 n) t2 0).bytesWritten =
      st.bytesWritten ∧
    (EventWrapperSocket.setTimeoutAt
        (EventWrapperSocket.setTimeoutAt st t1 n) t2 0).readOffset =
      st.readOffset ∧
    (runSocket (EventWrapperSocket.setTimeoutAt
        (EventWrapperSocket.setTimeoutAt st t1 n) t2 0) ops).2 = false := by
  have hne : n ≠ 0 := by omega
  refine ⟨by simp [EventWrapperSocket.setTimeoutAt, hne],
    by simp [EventWrapperSocket.setTimeoutAt, hne, BasicTimeoutModel.cancel],
    by simp [EventWrapperSocket.setTimeoutAt, hne],
    by simp [EventWrapperSocket.setTimeoutAt, hne],
    by simp [EventWrapperSocket.setTimeoutAt, hne], ?_⟩
  have hdis : (EventWrapperSocket.setTimeoutAt
      (EventWrapperSocket.setTimeoutAt st t1 n) t2 0).timeoutSlot.all
        (fun tm => !tm.armed) = true := by
    simp [EventWrapperSocket.setTimeoutAt, hne, BasicTimeoutModel.cancel]
  exact (runSocket_disarmed_no_signal ops _ false hdis hops).1

theorem EventWrapperSocket.setTimeout_zero_cancels_witness :
    (EventWrapperSocket.setTimeoutAt sockInit 0 5).timeoutSlot =
        some { armed := true, timeoutMs := 5, deadline := 5 } ∧
    (EventWrapperSocket.setTimeoutAt
        (EventWrapperSocket.setTimeoutAt sockInit 0 5) 1 0).timeoutSlot =
      some { armed := false, timeoutMs := 5, deadline := 5 } ∧
    (runSocket (EventWrapperSocket.setTimeoutAt
        (EventWrapperSocket.setTimeoutAt sockInit 0 5) 1 0)
      [(100, .fire), (200, .write (.buf [1])), (300, .fire)]).2 = false := by
  have h := EventWrapperSocket.setTimeout_zero_cancels sockInit 0 1 5 (by decide)
    [(100, .fire), (200, .write (.buf [1])), (300, .fire)] (by decide)
  exact ⟨h.1, h.2.1, h.2.2.2.2.2⟩

theorem runSocket_spaced_no_signal (n : Nat) (ops : List (Nat × SocketOp)) :
    ∀ (st : EventWrapperSocketState) (bb : Bool) (tlast : Nat),
      st.timeoutSlot = some { armed := true, timeoutMs := n, deadline := tlast + n } →
      writesSpaced n tlast ops = true →
      (ops.foldl (fun acc e => let r := socketStep acc.1 e; (r.1, acc.2 || r.2))
        (st, bb)).2 = bb := by
  induction ops with
  | nil => intro st bb tlast _ _; rfl
  | cons e ops ih =>
    intro st bb tlast hst hsp
    obtain ⟨t, op⟩ := e
    have hstep : ∀ st2 bb2,
        (((t, op) :: ops).foldl
            (fun acc e => let r := socketStep acc.1 e; (r.1, acc.2 || r.2)) (st2, bb2)) =
          (ops.foldl (fun acc e => let r := socketStep acc.1 e; (r.1, acc.2 || r.2))
            ((socketStep st2 (t, op)).1, bb2 || (socketStep st2 (t, op)).2)) := by
      intro st2 bb2; rfl
    rw [hstep]
    cases op with
    | setT ms => simp [writesSpaced] at hsp
    | write c =>
      simp only [writesSpaced, Bool.and_eq_true, decide_eq_true_eq] at hsp
      obtain ⟨⟨h1, h2⟩, hrest⟩ := hsp
      have hslot : (socketStep st (t, .write c)).1.timeoutSlot =
          some { armed := true, timeoutMs := n, deadline := t + n } := by
        simp [socketStep, EventWrapperSocket.writeAt, hst, BasicTimeoutModel.refreshAt]
      have hsig : (socketStep st (t, .write c)).2 = false := rfl
      rw [hsig, Bool.or_false]
      exact ih _ bb t hslot hrest
    | fire =>
      simp only [writesSpaced, Bool.and_eq_true, decide_eq_true_eq] at hsp
      obtain ⟨h1, hrest⟩ := hsp
      have hfire : socketStep st (t, .fire) = (st, false) := by
        have hnotfire : ¬ (tlast + n ≤ t) := by omega
        simp [socketStep, EventWrapperSocket.fireAt, hst, hnotfire]
      rw [hfire]
      simp only [Bool.or_false]
      exact ih _ bb tlast hst hrest

/-- C10: every write refreshes a pending armed socket timeout, restarting its
full duration from the time of the write, so along any trace in which
consecutive writes are spaced less than the duration apart and every fire
attempt comes before the current deadline, no timeout signal is emitted; a
timer that has fired or been cancelled is left untouched by the refresh. -/
theorem EventWrapperSocket.write_refreshes_timeout (n tlast : Nat)
    (st : EventWrapperSocketState) (ops : List (Nat × SocketOp))
    (hst : st.timeoutSlot = some { armed := true, timeoutMs := n, deadline := tlast + n })
    (hops : writesSpaced n tlast ops = true) :
    (runSocket st ops).2 = false ∧
    (∀ (st2 : EventWrapperSocketState) (t : Nat) (c : WriteChunk)
        (tm : BasicTimeoutModel),
       st2.timeoutSlot = some tm → tm.armed = true →
       (EventWrapperSocket.writeAt st2 t c).timeoutSlot =
         some { armed := true, timeoutMs := tm.timeoutMs, deadline := t + tm.timeoutMs }) ∧
    (∀ (st2 : EventWrapperSocketState) (t : Nat) (c : WriteChunk)
        (tm : BasicTimeoutModel),
       st2.timeoutSlot = some tm → tm.armed = false →
       (EventWrapperSocket.writeAt st2 t c).timeoutSlot = some tm) ∧
    (∀ (st2 : EventWrapperSocketState) (t : Nat) (c : WriteChunk),
       st2.timeoutSlot = none →
       (EventWrapperSocket.writeAt st2 t c).timeoutSlot = none) := by
  refine ⟨runSocket_spaced_no_signal n ops st false tlast hst hops, ?_, ?_, ?_⟩
  · intro st2 t c tm h2 harm
    obtain ⟨armed, ms, dl⟩ := tm
    simp only at harm
    subst harm
    simp [EventWrapperSocket.writeAt, h2, BasicTimeoutModel.refreshAt]
  · intro st2 t c tm h2 harm
    simp [EventWrapperSocket.writeAt, h2, BasicTimeoutModel.refreshAt, harm]
  · intro st2 t c h2
    simp [EventWrapperSocket.writeAt, h2]

theorem EventWrapperSocket.write_refreshes_timeout_witness :
    (runSocket { sockInit with
        timeoutSlot := some { armed := true, timeoutMs := 10, deadline := 10 } }
      [(9, .fire), (9, .write (.buf [1])), (18, .fire), (18, .write (.buf [2])),
       (27, .fire)]).2 = false := by
  exact (EventWrapperSocket.write_refreshes_timeout 10 0
    { sockInit with timeoutSlot := some { armed := true, timeoutMs := 10, deadline := 10 } }
    [(9, .fire), (9, .write (.buf [1])), (18, .fire), (18, .write (.buf [2])),
     (27, .fire)] (by decide) (by decide)).1

/-- C1 counterexample: a format-B event with rawPath /y, non-empty
rawQueryString c=3 and a structured query map {a: 1} yields the URL built
from the structured map, not the raw string, so the URL differs from
/y?c=3. -/
theorem LambdaIncomingMessage.parseUrl_raw_not_preferred :
    LambdaIncomingMessage.parseUrl eventBBothQueries = "/y?a=1" ∧
    ¬ (LambdaIncomingMessage.parseUrl eventBBothQueries = "/y?c=3") := by
  constructor
  · rfl
  · decide

/-- C1 amended: for a format-B event with a non-empty rawQueryString, the URL
is rawPath joined with the raw string verbatim only when the structured
queryStringParameters map is absent or null; when a structured map is present
its URL-encoded serialization is used instead and the raw string is
ignored. -/
theorem LambdaIncomingMessage.parseUrl_raw_when_map_absent
    (e : ApiGatewayEventModel) (rp q : String)
    (hpath : e.path = none) (hrp : e.rawPath = some rp)
    (hraw : e.rawQueryString = some q) (hne : q ≠ "") :
    LambdaIncomingMessage.parseUrl e =
      match e.queryStringParameters with
      | none => rp ++ "?" ++ q
      | some l =>
        if urlSearchParamsToString l = "" then rp
        else rp ++ "?" ++ urlSearchParamsToString l := by
  cases hq : e.queryStringParameters with
  | none =>
    simp only [LambdaIncomingMessage.parseUrl, hpath, hrp, hraw, hq]
    simp [hne]
  | some l =>
    simp only [LambdaIncomingMessage.parseUrl, hpath, hrp, hraw, hq]

theorem LambdaIncomingMessage.parseUrl_raw_when_map_absent_witness :
    LambdaIncomingMessage.parseUrl
      { version := some "2.0", httpMethod := none, path := none,
        rawPath := some "/y", queryStringParameters := none,
        rawQueryString := some "c=3" } = "/y?c=3" := by
  exact LambdaIncomingMessage.parseUrl_raw_when_map_absent
    { version := some "2.0", httpMethod := none, path := none,
      rawPath := some "/y", queryStringParameters := none,
      rawQueryString := some "c=3" } "/y" "c=3" rfl rfl rfl (by decide)

/-- C7: a numeric status is materialized as set; a status stored as a numeric
string is passed through parseInt to an integer; a fully unset status becomes
the forced default 200 in the v1 serializer while the v2 serializer leaves
statusCode unset. -/
theorem LambdaResponse.status_materialization (r : LambdaResponseModel) :
    (∀ n : Int, r.statusCode = some (.num n) →
       LambdaResponse.lambdaStatusCode r.statusCode = some (.int n)) ∧
    (∀ (s : String) (k : Int), r.statusCode = some (.str s) → parseIntJS s = some k →
       LambdaResponse.lambdaStatusCode r.statusCode = some (.int k)) ∧
    (r.statusCode = none →
       (LambdaResponse.lambdaResponse r).statusCode = 200 ∧
       (∀ res, LambdaResponse.lambdaResponseV2 r = some res → res.statusCode = none)) := by
  refine ⟨?_, ?_, ?_⟩
  · intro n h
    rw [h]
    rfl
  · intro s k h hp
    rw [h]
    simp [LambdaResponse.lambdaStatusCode, hp]
  · intro h
    refine ⟨?_, ?_⟩
    · simp [LambdaResponse.lambdaResponse, h, LambdaResponse.lambdaStatusCode,
        jsNumOrDefault]
    · intro res hres
      rw [LambdaResponse.lambdaResponseV2, h] at hres
      cases hlk : (LambdaResponse.makeHeaders r.headers).lookup "set-cookie" with
      | none =>
        rw [hlk] at hres
        simp only [LambdaResponse.lambdaStatusCode, Option.some.injEq] at hres
        rw [← hres]
      | some v =>
        rw [hlk] at hres
        cases v with
        | str s =>
          simp only [LambdaResponse.lambdaStatusCode, Option.some.injEq] at hres
          rw [← hres]
        | num m => simp at hres

theorem LambdaResponse.status_materialization_witness :
    LambdaResponse.lambdaStatusCode (some (.str "204")) = some (.int 204) ∧
    (LambdaResponse.lambdaResponse { statusCode := none, headers := [], bodyBytes := [] }).statusCode = 200 := by
  constructor
  · exact (LambdaResponse.status_materialization
      { statusCode := some (.str "204"), headers := [], bodyBytes := [] }).2.1
      "204" 204 rfl (by decide)
  · exact ((LambdaResponse.status_materialization
      { statusCode := none, headers := [], bodyBytes := [] }).2.2 rfl).1

theorem lookup_filter_ne_none (k : String) (l : List (String × OutHeaderValue)) :
    (l.filter (fun kv => kv.1 ≠ k)).lookup k = none := by
  induction l with
  | nil => rfl
  | cons kv l ih =>
    obtain ⟨k2, v2⟩ := kv
    by_cases h : k2 = k
    · simpa [List.filter_cons, h] using ih
    · have hbeq : (k == k2) = false := by
        simp [Ne.symm h]
      rw [List.filter_cons]
      have hcond : decide ((k2, v2).1 ≠ k) = true := by simp [h]
      rw [hcond, if_pos rfl, List.lookup_cons, hbeq]
      exact ih

/-- C3: serialization dispatches on the detected event version: a format-A
event always yields the A-shaped result, whose record type carries no cookies
field, whatever set-cookie header was set; a format-B event whose flattened
headers carry a set-cookie string entry yields a v2 result in which that
joined value is re-split on the semicolon-space joiner into a cookies array,
the cookies field is added only when that array is non-empty, and the
set-cookie key is no longer present in the headers map. -/
theorem LambdaResponse.toLambdaResponse_version_dispatch
    (e : ApiGatewayEventModel) (r : LambdaResponseModel) :
    (detectApiGatewayVersion e = .v1 →
       LambdaResponse.toLambdaResponse e r =
         some (.v1 (LambdaResponse.lambdaResponse r))) ∧
    (∀ s, detectApiGatewayVersion e = .v2 →
       (LambdaResponse.makeHeaders r.headers).lookup "set-cookie" = some (.str s) →
       ∃ res, LambdaResponse.toLambdaResponse e r = some (.v2 res) ∧
         res.cookies = (if 0 < (jsSplitString s "; ").length
            then some (jsSplitString s "; ") else none) ∧
         res.headers.lookup "set-cookie" = none) := by
  constructor
  · intro hv
    simp [LambdaResponse.toLambdaResponse, hv]
  · intro s hv hlk
    have hv2 : LambdaResponse.lambdaResponseV2 r = some {
        statusCode := LambdaResponse.lambdaStatusCode r.statusCode,
        body := (LambdaResponse.makeBodyResponse r.bodyBytes).1,
        headers := (LambdaResponse.makeHeaders r.headers).filter
          (fun kv => kv.1 ≠ "set-cookie"),
        isBase64Encoded := (LambdaResponse.makeBodyResponse r.bodyBytes).2,
        cookies := if 0 < (jsSplitString s "; ").length
          then some (jsSplitString s "; ") else none } := by
      simp only [LambdaResponse.lambdaResponseV2, hlk]
    refine ⟨{ statusCode := LambdaResponse.lambdaStatusCode r.statusCode,
              body := (LambdaResponse.makeBodyResponse r.bodyBytes).1,
              headers := (LambdaResponse.makeHeaders r.headers).filter
                (fun kv => kv.1 ≠ "set-cookie"),
              isBase64Encoded := (LambdaResponse.makeBodyResponse r.bodyBytes).2,
              cookies := if 0 < (jsSplitString s "; ").length
                then some (jsSplitString s "; ") else none },
        ?_, rfl, lookup_filter_ne_none "set-cookie" _⟩
    simp [LambdaResponse.toLambdaResponse, hv, hv2]

theorem LambdaResponse.toLambdaResponse_version_dispatch_witness :
    (LambdaResponse.toLambdaResponse
        { version := none, httpMethod := some "GET", path := some "/x",
          rawPath := none, queryStringParameters := none, rawQueryString := none }
        { statusCode := none,
          headers := [("set-cookie", .arr ["a=1", "b=2"])], bodyBytes := [] } =
      some (.v1 (LambdaResponse.lambdaResponse
        { statusCode := none,
          headers := [("set-cookie", .arr ["a=1", "b=2"])], bodyBytes := [] }))) ∧
    (∃ res, LambdaResponse.toLambdaResponse
        { version := some "2.0", httpMethod := none, path := none,
          rawPath := some "/y", queryStringParameters := none, rawQueryString := none }
        { statusCode := none,
          headers := [("set-cookie", .arr ["a=1", "b=2"])], bodyBytes := [] } =
      some (.v2 res) ∧ res.cookies = some ["a=1", "b=2"] ∧
      res.headers.lookup "set-cookie" = none) := by
  constructor
  · exact (LambdaResponse.toLambdaResponse_version_dispatch
      { version := none, httpMethod := some "GET", path := some "/x",
        rawPath := none, queryStringParameters := none, rawQueryString := none }
      { statusCode := none,
        headers := [("set-cookie", .arr ["a=1", "b=2"])], bodyBytes := [] }).1 (by decide)
  · obtain ⟨res, h1, h2, h3⟩ := (LambdaResponse.toLambdaResponse_version_dispatch
      { version := some "2.0", httpMethod := none, path := none,
        rawPath := some "/y", queryStringParameters := none, rawQueryString := none }
      { statusCode := none,
        headers := [("set-cookie", .arr ["a=1", "b=2"])], bodyBytes := [] }).2
      "a=1; b=2" (by decide) (by decide)
    refine ⟨res, h1, ?_, h3⟩
    rw [h2]
    decide

theorem sextetsToBytes_bytesToSextets :
    ∀ bs : List Nat, (∀ b ∈ bs, b < 256) →
      sextetsToBytes (bytesToSextets bs) = bs
  | [], _ => rfl
  | [b0], h => by
    have hb0 : b0 < 256 := h b0 (by simp)
    simp only [bytesToSextets, sextetsToBytes, List.cons.injEq, and_true]
    omega
  | [b0, b1], h => by
    have hb0 : b0 < 256 := h b0 (by simp)
    have hb1 : b1 < 256 := h b1 (by simp)
    simp only [bytesToSextets, sextetsToBytes, List.cons.injEq, and_true]
    omega
  | b0 :: b1 :: b2 :: b3 :: rest, h => by
    have hb0 : b0 < 256 := h b0 (by simp)
    have hb1 : b1 < 256 := h b1 (by simp)
    have hb2 : b2 < 256 := h b2 (by simp)
    have ih := sextetsToBytes_bytesToSextets (b3 :: rest)
      (fun b hb => h b (by simp at hb ⊢; tauto))
    simp only [bytesToSextets, sextetsToBytes, List.cons.injEq]
    exact ⟨by omega, by omega, by omega, ih⟩
  | [b0, b1, b2], h => by
    have hb0 : b0 < 256 := h b0 (by simp)
    have hb1 : b1 < 256 := h b1 (by simp)
    have hb2 : b2 < 256 := h b2 (by simp)
    simp only [bytesToSextets, sextetsToBytes, List.cons.injEq, and_true]
    omega

theorem bytesToSextets_lt :
    ∀ bs : List Nat, (∀ b ∈ bs, b < 256) → ∀ s ∈ bytesToSextets bs, s < 64
  | [], _ => by simp [bytesToSextets]
  | [b0], h => by
    have hb0 : b0 < 256 := h b0 (by simp)
    intro s hs
    simp only [bytesToSextets, List.mem_cons, List.not_mem_nil, or_false] at hs
    rcases hs with rfl | rfl <;> omega
  | [b0, b1], h => by
    have hb0 : b0 < 256 := h b0 (by simp)
    have hb1 : b1 < 256 := h b1 (by simp)
    intro s hs
    simp only [bytesToSextets, List.mem_cons, List.not_mem_nil, or_false] at hs
    rcases hs with rfl | rfl | rfl <;> omega
  | b0 :: b1 :: b2 :: rest, h => by
    have hb0 : b0 < 256 := h b0 (by simp)
    have hb1 : b1 < 256 := h b1 (by simp)
    have hb2 : b2 < 256 := h b2 (by simp)
    have ih := bytesToSextets_lt rest
      (fun b hb => h b (by simp [hb]))
    intro s hs
    simp only [bytesToSextets, List.mem_cons] at hs
    rcases hs with rfl | rfl | rfl | rfl | hs
    · omega
    · omega
    · omega
    · omega
    · exact ih s hs

theorem base64CharVal_base64Char : ∀ n, n < 64 → base64CharVal (base64Char n) = n := by
  decide

theorem base64Char_ne_pad : ∀ n, n < 64 → (base64Char n).toNat ≠ 61 := by
  decide

theorem base64DecodeString_base64EncodeString (bs : List Nat)
    (h : ∀ b ∈ bs, b < 256) :
    base64DecodeString (base64EncodeString bs) = bs := by
  have hsex := bytesToSextets_lt bs h
  show sextetsToBytes
      ((((bytesToSextets bs).map base64Char ++
          List.replicate ((3 - bs.length % 3) % 3) (Char.ofNat 61)).filter
        (fun c => c.toNat ≠ 61)).map base64CharVal) = bs
  rw [List.filter_append]
  have h1 : ((bytesToSextets bs).map base64Char).filter (fun c => c.toNat ≠ 61) =
      (bytesToSextets bs).map base64Char := by
    rw [List.filter_eq_self]
    intro c hc
    obtain ⟨s, hs, rfl⟩ := List.mem_map.mp hc
    simpa using base64Char_ne_pad s (hsex s hs)
  have h2 : (List.replicate ((3 - bs.length % 3) % 3) (Char.ofNat 61)).filter
      (fun c => c.toNat ≠ 61) = [] := by
    rw [List.filter_replicate]
    simp
  rw [h1, h2, List.append_nil, List.map_map]
  have h3 : (bytesToSextets bs).map (base64CharVal ∘ base64Char) = bytesToSextets bs := by
    calc (bytesToSextets bs).map (base64CharVal ∘ base64Char)
        = (bytesToSextets bs).map id :=
          List.map_congr_left (fun s hs => by
            simpa using base64CharVal_base64Char s (hsex s hs))
      _ = bytesToSextets bs := List.map_id _
  rw [h3]
  exact sextetsToBytes_bytesToSextets bs h

/-- C2: the binary-safety rule depends only on the accumulated bytes: when
every byte is printable ASCII (32 to 126 inclusive) the produced pair is the
literal text with the base64 flag off; otherwise the flag is on and decoding
the produced base64 text reproduces the exact original bytes. -/
theorem LambdaResponse.makeBodyResponse_binary_safety (body : List Nat)
    (hb : ∀ b ∈ body, b < 256) :
    ((∀ b ∈ body, 32 ≤ b ∧ b ≤ 126) →
       LambdaResponse.makeBodyResponse body = (asciiString body, false)) ∧
    ((¬ ∀ b ∈ body, 32 ≤ b ∧ b ≤ 126) →
       (LambdaResponse.makeBodyResponse body).2 = true ∧
       base64DecodeString (LambdaResponse.makeBodyResponse body).1 = body) := by
  constructor
  · intro hall
    have hany : body.any (fun c => decide (c < 32) || decide (126 < c)) = false := by
      rw [List.any_eq_false]
      intro x hx
      have := hall x hx
      simp only [Bool.or_eq_true, decide_eq_true_eq, not_or]
      omega
    simp [LambdaResponse.makeBodyResponse, hany]
  · intro hnall
    push_neg at hnall
    obtain ⟨b, hbmem, hbv⟩ := hnall
    have hany : body.any (fun c => decide (c < 32) || decide (126 < c)) = true := by
      rw [List.any_eq_true]
      refine ⟨b, hbmem, ?_⟩
      simp only [Bool.or_eq_true, decide_eq_true_eq]
      omega
    refine ⟨by simp [LambdaResponse.makeBodyResponse, hany], ?_⟩
    have hbody : LambdaResponse.makeBodyResponse body = (base64EncodeString body, true) := by
      simp [LambdaResponse.makeBodyResponse, hany]
    rw [hbody]
    exact base64DecodeString_base64EncodeString body hb

theorem LambdaResponse.makeBodyResponse_binary_safety_witness :
    LambdaResponse.makeBodyResponse [104, 105] = (asciiString [104, 105], false) ∧
    (LambdaResponse.makeBodyResponse [0, 255, 10]).2 = true ∧
    base64DecodeString (LambdaResponse.makeBodyResponse [0, 255, 10]).1 = [0, 255, 10] := by
  obtain ⟨h1, h2⟩ :=
    (LambdaResponse.makeBodyResponse_binary_safety [0, 255, 10] (by decide)).2 (by decide)
  exact ⟨(LambdaResponse.makeBodyResponse_binary_safety [104, 105] (by decide)).1 (by decide),
    h1, h2⟩
